import Mathlib

/-!
Verification of the indexpage service (src/src/main.rs): a minimal HTTP
service over a Postgres table
services(id SERIAL PRIMARY KEY, name TEXT UNIQUE NOT NULL, link TEXT UNIQUE NOT NULL)
with three handlers: get_services (GET /services), create_service
(POST /services) and delete_service (DELETE /services/:name).

The database is embedded as a list of rows plus the value the SERIAL
sequence will hand to the next INSERT.  Handlers are embedded as the pure
functions they are in the Rust source: each receives the outcome of its
single SQL statement (an Except, mirroring the sqlx Result) and translates
it to a response exactly as the corresponding match expression does.
External storage failures (connectivity and the like) are modelled by an
oracle argument: some e makes the SQL statement fail with error text e
before touching the table, none lets it run against the table state.
-/

/-- One row of the services table, mirroring struct Service (id i32,
name String, link String) in src/src/main.rs. -/
structure Service where
  id : Int
  name : String
  link : String
deriving DecidableEq, Repr

/-- Request payload for POST /services, mirroring struct CreateService. -/
structure CreateService where
  name : String
  link : String
deriving DecidableEq, Repr

/-- State of the services table: the stored rows together with the value
the SERIAL sequence will assign to the next inserted row. -/
structure DbState where
  records : List Service
  nextId : Int
deriving DecidableEq, Repr

/-- The freshly bootstrapped table created by the startup statement
CREATE TABLE IF NOT EXISTS: no rows, SERIAL sequence at 1. -/
def initialState : DbState := ⟨[], 1⟩

/-- The error half of an axum handler result (StatusCode, String). -/
structure ErrResponse where
  status : Nat
  body : String
deriving DecidableEq, Repr

/-- Semantics of the statement
INSERT INTO services (name, link) VALUES ($1, $2) RETURNING * :
Postgres first draws the SERIAL value, then checks the UNIQUE constraints
on name and link; a violation aborts the insert (the sequence value is
still consumed) and surfaces as an error, otherwise the new row is
appended and returned. -/
def insertService (st : DbState) (p : CreateService) :
    Except String Service × DbState :=
  if st.records.any (fun s => s.name == p.name) then
    (Except.error ("duplicate key value violates unique constraint \"services_name_key\""),
     { st with nextId := st.nextId + 1 })
  else if st.records.any (fun s => s.link == p.link) then
    (Except.error ("duplicate key value violates unique constraint \"services_link_key\""),
     { st with nextId := st.nextId + 1 })
  else
    let svc : Service := ⟨st.nextId, p.name, p.link⟩
    (Except.ok svc, { records := st.records ++ [svc], nextId := st.nextId + 1 })

/-- Semantics of the statement DELETE FROM services WHERE name = $1 :
removes every row whose name equals the argument and reports the number
of rows affected. -/
def deleteRows (st : DbState) (n : String) : Nat × DbState :=
  (st.records.countP (fun s => s.name == n),
   { st with records := st.records.filter (fun s => !(s.name == n)) })

/-- Handler for GET /services: the fetch_all result is unwrapped with
unwrap_or_else, turning any storage error into the empty vector. -/
def get_services (fetched : Except String (List Service)) : List Service :=
  match fetched with
  | Except.ok services => services
  | Except.error _ => []

/-- Handler for POST /services: Ok(service) is returned as a JSON body;
every Err(e) becomes (StatusCode::BAD_REQUEST, "Failed to insert: {e}"). -/
def create_service (result : Except String Service) :
    Except ErrResponse Service :=
  match result with
  | Except.ok service => Except.ok service
  | Except.error e => Except.error ⟨400, "Failed to insert: " ++ e⟩

/-- Handler for DELETE /services/:name: Ok(r) with rows_affected() > 0
yields the confirmation message, Ok with zero rows yields
(StatusCode::NOT_FOUND, "Service not found"), and Err(e) yields
(StatusCode::INTERNAL_SERVER_ERROR, e.to_string()). -/
def delete_service (name : String) (result : Except String Nat) :
    Except ErrResponse String :=
  match result with
  | Except.ok r =>
      if r > 0 then Except.ok ("Deleted \x27" ++ name ++ "\x27")
      else Except.error ⟨404, "Service not found"⟩
  | Except.error e => Except.error ⟨500, e⟩

/-- HTTP status of a create_service result: axum renders Ok(Json(_)) with
status 200, and an Err carries its own status. -/
def createStatus : Except ErrResponse Service → Nat
  | Except.ok _ => 200
  | Except.error e => e.status

/-- HTTP status of a delete_service result. -/
def deleteStatus : Except ErrResponse String → Nat
  | Except.ok _ => 200
  | Except.error e => e.status

/-- Full response of GET /services: the handler returns Json(Vec), an
infallible body that axum always renders with status 200. -/
def listResponse (fetched : Except String (List Service)) :
    Nat × List Service :=
  (200, get_services fetched)

/-- POST /services run against a table state.  The oracle injects an
external storage failure (e.g. lost connectivity): some e makes the
INSERT statement fail with error text e without touching the table,
none executes it. -/
def runCreateWith (st : DbState) (p : CreateService) (oracle : Option String) :
    Except ErrResponse Service × DbState :=
  match oracle with
  | some e => (create_service (Except.error e), st)
  | none =>
      let r := insertService st p
      (create_service r.1, r.2)

/-- DELETE /services/:name run against a table state, with the same
failure oracle as runCreateWith. -/
def runDeleteWith (st : DbState) (n : String) (oracle : Option String) :
    Except ErrResponse String × DbState :=
  match oracle with
  | some e => (delete_service n (Except.error e), st)
  | none =>
      let r := deleteRows st n
      (delete_service n (Except.ok r.1), r.2)

/-- POST /services on the failure-free path. -/
def runCreate (st : DbState) (p : CreateService) :
    Except ErrResponse Service × DbState :=
  runCreateWith st p none

/-- DELETE /services/:name on the failure-free path. -/
def runDelete (st : DbState) (n : String) :
    Except ErrResponse String × DbState :=
  runDeleteWith st n none

/-- GET /services on the failure-free path: SELECT * FROM services
returns every stored row. -/
def runList (st : DbState) : List Service :=
  get_services (Except.ok st.records)

/-- One request processed against the table: a create or a delete with an
arbitrary failure oracle, or a list (which never changes the table). -/
inductive Step : DbState → DbState → Prop where
  | create (st : DbState) (p : CreateService) (oracle : Option String) :
      Step st (runCreateWith st p oracle).2
  | del (st : DbState) (n : String) (oracle : Option String) :
      Step st (runDeleteWith st n oracle).2
  | list (st : DbState) : Step st st

/-- Table states reachable from the bootstrapped empty table by any
sequence of requests. -/
inductive Reachable : DbState → Prop where
  | init : Reachable initialState
  | step {st st' : DbState} : Reachable st → Step st st' → Reachable st'

/-- Invariant of the services table: names, links and ids are pairwise
distinct and every stored id is below the SERIAL sequence value. -/
def TableInv (st : DbState) : Prop :=
  (st.records.map Service.name).Nodup ∧
  (st.records.map Service.link).Nodup ∧
  (st.records.map Service.id).Nodup ∧
  ∀ s ∈ st.records, s.id < st.nextId

/-- C5: on a storage failure during list, GET /services responds with
status 200 and an empty sequence instead of surfacing the error. -/
theorem list_failure_swallowed (e : String) :
    listResponse (Except.error e) = (200, []) := rfl

/-- C7: the list operation returns exactly the stored records (every
stored record is returned and every returned record is stored); in
particular, list on the freshly bootstrapped empty table is empty. -/
theorem list_returns_all_records :
    (∀ (st : DbState) (s : Service), s ∈ runList st ↔ s ∈ st.records) ∧
    runList initialState = [] :=
  ⟨fun _ _ => Iff.rfl, rfl⟩

/-- C10: a delete request for path name n leaves every record whose name
differs from n stored unchanged, whichever of the three outcomes
(success, not-found, storage failure) occurs, and stores no new record. -/
theorem delete_frame (st : DbState) (n : String) (oracle : Option String) :
    (∀ s ∈ st.records, s.name ≠ n → s ∈ (runDeleteWith st n oracle).2.records) ∧
    (∀ s ∈ (runDeleteWith st n oracle).2.records, s ∈ st.records) := by
  cases oracle with
  | some e =>
      exact ⟨fun s hs _ => hs, fun s hs => hs⟩
  | none =>
      constructor
      · intro s hs hn
        simp [runDeleteWith, deleteRows, List.mem_filter, hs, hn]
      · intro s hs
        simp only [runDeleteWith, deleteRows] at hs
        exact List.mem_of_mem_filter hs

/-- Collision-freedom of a payload name against the stored rows, as the
Bool the INSERT semantics branches on. -/
theorem any_name_eq_false {l : List Service} {nm : String}
    (h : ∀ s ∈ l, s.name ≠ nm) :
    l.any (fun s => s.name == nm) = false := by
  rw [List.any_eq_false]
  intro s hs
  simpa using h s hs

/-- Collision-freedom of a payload link against the stored rows. -/
theorem any_link_eq_false {l : List Service} {lk : String}
    (h : ∀ s ∈ l, s.link ≠ lk) :
    l.any (fun s => s.link == lk) = false := by
  rw [List.any_eq_false]
  intro s hs
  simpa using h s hs

/-- C6: a successful create responds with the newly created record
itself: the identifier drawn by storage on insert together with the
submitted name and link. -/
theorem create_success_body (st : DbState) (p : CreateService)
    (hname : ∀ s ∈ st.records, s.name ≠ p.name)
    (hlink : ∀ s ∈ st.records, s.link ≠ p.link) :
    (runCreate st p).1 = Except.ok ⟨st.nextId, p.name, p.link⟩ := by
  simp [runCreate, runCreateWith, insertService, create_service,
    any_name_eq_false hname, any_link_eq_false hlink]

/-- C6 witness: the first create on the bootstrapped table returns the
record with id 1 and the submitted fields. -/
theorem create_success_body_witness :
    (∀ s ∈ initialState.records, s.name ≠ "a") ∧
    (∀ s ∈ initialState.records, s.link ≠ "http://x") ∧
    (runCreate initialState ⟨"a", "http://x"⟩).1 =
      Except.ok ⟨1, "a", "http://x"⟩ :=
  ⟨fun s hs => by simp [initialState] at hs,
   fun s hs => by simp [initialState] at hs,
   create_success_body initialState ⟨"a", "http://x"⟩
     (fun s hs => by simp [initialState] at hs)
     (fun s hs => by simp [initialState] at hs)⟩

/-- C4 counterexample: an external storage failure on create (here a lost
connection) is answered with status 400, not with an internal error 500. -/
theorem create_connectivity_failure_is_400 :
    (runCreateWith initialState ⟨"a", "http://x"⟩ (some "connection refused")).1 =
      Except.error ⟨400, "Failed to insert: connection refused"⟩ ∧
    createStatus (runCreateWith initialState ⟨"a", "http://x"⟩
      (some "connection refused")).1 ≠ 500 :=
  ⟨rfl, by decide⟩

/-- C4 amended: on delete, every storage failure other than not-found is
reported as an internal error 500 carrying the error text; on create,
every storage failure, a connectivity failure included, is reported as a
client error 400 whose body prefixes the error text with
"Failed to insert: ". -/
theorem other_storage_failures (st : DbState) (n : String)
    (p : CreateService) (e : String) :
    (runDeleteWith st n (some e)).1 = Except.error ⟨500, e⟩ ∧
    (runCreateWith st p (some e)).1 =
      Except.error ⟨400, "Failed to insert: " ++ e⟩ :=
  ⟨rfl, rfl⟩

/-- First request of the C8 scenario: create a on the empty table. -/
def scn1 : Except ErrResponse Service × DbState :=
  runCreate initialState ⟨"a", "http://x"⟩

/-- Second request of the C8 scenario: create with the same payload. -/
def scn2 : Except ErrResponse Service × DbState :=
  runCreate scn1.2 ⟨"a", "http://x"⟩

/-- Third request of the C8 scenario: delete a. -/
def scn3 : Except ErrResponse String × DbState :=
  runDelete scn2.2 "a"

/-- Fourth request of the C8 scenario: delete a again. -/
def scn4 : Except ErrResponse String × DbState :=
  runDelete scn3.2 "a"

/-- C8: from the bootstrapped empty table with no storage failures,
create of name a and link http://x answers 200 with id 1, the repeated
create answers 400, delete of a answers 200 with the confirmation
message, and a second delete of a answers 404. -/
theorem bootstrap_scenario :
    createStatus scn1.1 = 200 ∧
    scn1.1 = Except.ok ⟨1, "a", "http://x"⟩ ∧
    createStatus scn2.1 = 400 ∧
    scn3.1 = Except.ok ("Deleted \x27a\x27") ∧
    deleteStatus scn3.1 = 200 ∧
    deleteStatus scn4.1 = 404 :=
  ⟨rfl, rfl, rfl, rfl, rfl, rfl⟩


/-- The invariant holds in the bootstrapped empty table. -/
theorem tableInv_initial : TableInv initialState := by
  simp [TableInv, initialState]

/-- Two stored rows with the same id are the same row, given the id
component of the invariant. -/
theorem mem_id_inj {l : List Service} (h : (l.map Service.id).Nodup)
    {s t : Service} (hs : s ∈ l) (ht : t ∈ l) (hid : s.id = t.id) : s = t :=
  List.inj_on_of_nodup_map h hs ht hid

/-- Characterisation of a collision-free INSERT: the new row carries the
SERIAL value and is appended, and the sequence advances. -/
theorem insertService_success (st : DbState) (p : CreateService)
    (h1 : (st.records.any fun s => s.name == p.name) = false)
    (h2 : (st.records.any fun s => s.link == p.link) = false) :
    insertService st p =
      (Except.ok ⟨st.nextId, p.name, p.link⟩,
       ⟨st.records ++ [⟨st.nextId, p.name, p.link⟩], st.nextId + 1⟩) := by
  simp [insertService, h1, h2]

/-- The INSERT either leaves the rows unchanged (a constraint violation)
or appends exactly the new row. -/
theorem insertService_records (st : DbState) (p : CreateService) :
    (insertService st p).2.records = st.records ∨
    (insertService st p).2.records =
      st.records ++ [⟨st.nextId, p.name, p.link⟩] := by
  simp only [insertService]
  split
  · exact Or.inl rfl
  · split
    · exact Or.inl rfl
    · exact Or.inr rfl

/-- The INSERT always consumes the SERIAL sequence value. -/
theorem insertService_nextId (st : DbState) (p : CreateService) :
    (insertService st p).2.nextId = st.nextId + 1 := by
  simp only [insertService]
  split
  · rfl
  · split
    · rfl
    · rfl

/-- A create request, whether it succeeds, hits a constraint or fails
externally, preserves the table invariant. -/
theorem tableInv_create (st : DbState) (p : CreateService)
    (oracle : Option String) (h : TableInv st) :
    TableInv (runCreateWith st p oracle).2 := by
  obtain ⟨hn, hl, hi, hb⟩ := h
  cases oracle with
  | some e => exact ⟨hn, hl, hi, hb⟩
  | none =>
      show TableInv (insertService st p).2
      have hnext := insertService_nextId st p
      by_cases h1 : (st.records.any fun s => s.name == p.name) = true
      · have hrec : (insertService st p).2.records = st.records := by
          simp [insertService, h1]
        rw [TableInv, hrec, hnext]
        refine ⟨hn, hl, hi, ?_⟩
        intro s hs
        have := hb s hs
        omega
      · have h1f : (st.records.any fun s => s.name == p.name) = false := by
          simpa using h1
        by_cases h2 : (st.records.any fun s => s.link == p.link) = true
        · have hrec : (insertService st p).2.records = st.records := by
            simp [insertService, h1f, h2]
          rw [TableInv, hrec, hnext]
          refine ⟨hn, hl, hi, ?_⟩
          intro s hs
          have := hb s hs
          omega
        · have h2f : (st.records.any fun s => s.link == p.link) = false := by
            simpa using h2
          have hname : p.name ∉ st.records.map Service.name := by
            intro hmem
            obtain ⟨s, hs, hsn⟩ := List.mem_map.mp hmem
            exact h1 (List.any_eq_true.mpr ⟨s, hs, by simp [hsn]⟩)
          have hlink : p.link ∉ st.records.map Service.link := by
            intro hmem
            obtain ⟨s, hs, hsn⟩ := List.mem_map.mp hmem
            exact h2 (List.any_eq_true.mpr ⟨s, hs, by simp [hsn]⟩)
          have hid : st.nextId ∉ st.records.map Service.id := by
            intro hmem
            obtain ⟨s, hs, hsn⟩ := List.mem_map.mp hmem
            have := hb s hs
            omega
          have hrec : (insertService st p).2.records =
              st.records ++ [⟨st.nextId, p.name, p.link⟩] := by
            rw [insertService_success st p h1f h2f]
          rw [TableInv, hrec, hnext]
          refine ⟨?_, ?_, ?_, ?_⟩
          · simpa [List.nodup_append, hn] using hname
          · simpa [List.nodup_append, hl] using hlink
          · simpa [List.nodup_append, hi] using hid
          · intro s hs
            rcases List.mem_append.mp hs with hs | hs
            · have := hb s hs
              omega
            · rcases List.mem_singleton.mp hs with rfl
              show st.nextId < st.nextId + 1
              omega

/-- A delete request, whichever of its three outcomes occurs, preserves
the table invariant. -/
theorem tableInv_delete (st : DbState) (n : String)
    (oracle : Option String) (h : TableInv st) :
    TableInv (runDeleteWith st n oracle).2 := by
  obtain ⟨hn, hl, hi, hb⟩ := h
  cases oracle with
  | some e => exact ⟨hn, hl, hi, hb⟩
  | none =>
      show TableInv (deleteRows st n).2
      have hsub : List.Sublist
          (st.records.filter fun s => !(s.name == n)) st.records :=
        List.filter_sublist _
      refine ⟨hn.sublist (hsub.map Service.name),
        hl.sublist (hsub.map Service.link),
        hi.sublist (hsub.map Service.id), ?_⟩
      intro s hs
      exact hb s (List.mem_of_mem_filter hs)

/-- One processed request preserves the table invariant. -/
theorem tableInv_step {st st' : DbState} (h : TableInv st)
    (hs : Step st st') : TableInv st' := by
  cases hs with
  | create p oracle => exact tableInv_create st p oracle h
  | del n oracle => exact tableInv_delete st n oracle h
  | list => exact h

/-- Every reachable table state satisfies the invariant. -/
theorem tableInv_reachable (st : DbState) (hr : Reachable st) :
    TableInv st := by
  induction hr with
  | init => exact tableInv_initial
  | step _ hs ih => exact tableInv_step ih hs

/-- C9: in every reachable table state the stored names, links and ids
are pairwise distinct, and across any processed request the sequence
value never decreases, every row present before and after is unchanged
(same id, name and link), and any new row draws the current sequence
value, an id distinct from every stored id. -/
theorem id_discipline (st st' : DbState)
    (hr : Reachable st) (hs : Step st st') :
    TableInv st' ∧
    st.nextId ≤ st'.nextId ∧
    (∀ s' ∈ st'.records, s' ∈ st.records ∨
        (s'.id = st.nextId ∧ ∀ s ∈ st.records, s.id ≠ s'.id)) ∧
    (∀ s ∈ st.records, ∀ s' ∈ st'.records, s.id = s'.id → s = s') := by
  have hinv := tableInv_reachable st hr
  obtain ⟨hn, hl, hi, hb⟩ := hinv
  have hinv' : TableInv st' := tableInv_step ⟨hn, hl, hi, hb⟩ hs
  refine ⟨hinv', ?_, ?_, ?_⟩
  all_goals cases hs with
  | list =>
      first
      | exact le_refl _
      | exact fun s' hs' => Or.inl hs'
      | exact fun s hsm s' hs' hid => mem_id_inj hi hsm hs' hid
  | create p oracle =>
      cases oracle with
      | some e =>
          first
          | exact le_refl _
          | exact fun s' hs' => Or.inl hs'
          | exact fun s hsm s' hs' hid => mem_id_inj hi hsm hs' hid
      | none =>
          first
          | · show st.nextId ≤ (insertService st p).2.nextId
              rw [insertService_nextId]
              omega
          | · intro s' hs'
              rcases insertService_records st p with hrec | hrec
              · rw [show (runCreateWith st p none).2.records =
                    (insertService st p).2.records from rfl, hrec] at hs'
                exact Or.inl hs'
              · rw [show (runCreateWith st p none).2.records =
                    (insertService st p).2.records from rfl, hrec] at hs'
                rcases List.mem_append.mp hs' with h | h
                · exact Or.inl h
                · rcases List.mem_singleton.mp h with rfl
                  refine Or.inr ⟨rfl, ?_⟩
                  intro s hsm
                  have := hb s hsm
                  show s.id ≠ st.nextId
                  omega
          | · intro s hsm s' hs' hid
              rcases insertService_records st p with hrec | hrec
              · rw [show (runCreateWith st p none).2.records =
                    (insertService st p).2.records from rfl, hrec] at hs'
                exact mem_id_inj hi hsm hs' hid
              · rw [show (runCreateWith st p none).2.records =
                    (insertService st p).2.records from rfl, hrec] at hs'
                rcases List.mem_append.mp hs' with h | h
                · exact mem_id_inj hi hsm h hid
                · rcases List.mem_singleton.mp h with rfl
                  have := hb s hsm
                  rw [show Service.id ⟨st.nextId, p.name, p.link⟩ =
                    st.nextId from rfl] at hid
                  omega
  | del n oracle =>
      cases oracle with
      | some e =>
          first
          | exact le_refl _
          | exact fun s' hs' => Or.inl hs'
          | exact fun s hsm s' hs' hid => mem_id_inj hi hsm hs' hid
      | none =>
          first
          | exact le_refl _
          | exact fun s' hs' => Or.inl (List.mem_of_mem_filter hs')
          | exact fun s hsm s' hs' hid =>
              mem_id_inj hi hsm (List.mem_of_mem_filter hs') hid

/-- C9 witness: the invariants and the id discipline instantiated at the
bootstrapped table and the state-preserving list request. -/
theorem id_discipline_witness :
    Reachable initialState ∧ Step initialState initialState ∧
    (TableInv initialState ∧
     initialState.nextId ≤ initialState.nextId ∧
     (∀ s' ∈ initialState.records, s' ∈ initialState.records ∨
         (s'.id = initialState.nextId ∧
          ∀ s ∈ initialState.records, s.id ≠ s'.id)) ∧
     (∀ s ∈ initialState.records, ∀ s' ∈ initialState.records,
         s.id = s'.id → s = s')) :=
  ⟨Reachable.init, Step.list initialState,
   id_discipline initialState initialState Reachable.init
     (Step.list initialState)⟩

/-- C1: a create of a non-colliding pair followed by list yields exactly
one record with that name and link, the new record carries the SERIAL
value as id, and that id differs from the id of every record stored
before the create. -/
theorem create_then_list_unique (st : DbState) (p : CreateService)
    (hr : Reachable st)
    (hname : ∀ s ∈ st.records, s.name ≠ p.name)
    (hlink : ∀ s ∈ st.records, s.link ≠ p.link) :
    ((runList (runCreate st p).2).countP
        (fun s => s.name == p.name && s.link == p.link) = 1) ∧
    (⟨st.nextId, p.name, p.link⟩ : Service) ∈ runList (runCreate st p).2 ∧
    ∀ s ∈ st.records, st.nextId ≠ s.id := by
  have hb := (tableInv_reachable st hr).2.2.2
  have h1 := any_name_eq_false hname
  have h2 := any_link_eq_false hlink
  have hrec : runList (runCreate st p).2 =
      st.records ++ [⟨st.nextId, p.name, p.link⟩] := by
    show (insertService st p).2.records = _
    rw [insertService_success st p h1 h2]
  refine ⟨?_, ?_, ?_⟩
  · rw [hrec, List.countP_append]
    have hz : st.records.countP
        (fun s => s.name == p.name && s.link == p.link) = 0 := by
      rw [List.countP_eq_zero]
      intro s hs
      simp [hname s hs]
    rw [hz]
    simp
  · rw [hrec]
    exact List.mem_append_right _ (List.mem_singleton_self _)
  · intro s hs
    have := hb s hs
    omega

/-- C1 witness: the first create on the bootstrapped table, listed. -/
theorem create_then_list_unique_witness :
    Reachable initialState ∧
    (∀ s ∈ initialState.records, s.name ≠ "a") ∧
    (∀ s ∈ initialState.records, s.link ≠ "http://x") ∧
    (((runList (runCreate initialState ⟨"a", "http://x"⟩).2).countP
        (fun s => s.name == "a" && s.link == "http://x") = 1) ∧
     (⟨initialState.nextId, "a", "http://x"⟩ : Service) ∈
        runList (runCreate initialState ⟨"a", "http://x"⟩).2 ∧
     ∀ s ∈ initialState.records, initialState.nextId ≠ s.id) :=
  ⟨Reachable.init,
   fun s hs => by simp [initialState] at hs,
   fun s hs => by simp [initialState] at hs,
   create_then_list_unique initialState ⟨"a", "http://x"⟩ Reachable.init
     (fun s hs => by simp [initialState] at hs)
     (fun s hs => by simp [initialState] at hs)⟩

/-- C2: a create whose name or link collides with a stored record fails:
the INSERT surfaces a storage error, the response is status 400 with the
storage error text appended to the fixed prefix, and the stored rows are
unchanged. -/
theorem duplicate_create_rejected (st : DbState) (p : CreateService)
    (hcol : ∃ s ∈ st.records, s.name = p.name ∨ s.link = p.link) :
    (∃ e, (insertService st p).1 = Except.error e ∧
        (runCreate st p).1 = Except.error ⟨400, "Failed to insert: " ++ e⟩) ∧
    (runCreate st p).2.records = st.records := by
  obtain ⟨s, hs, hcase⟩ := hcol
  by_cases h1 : (st.records.any fun t => t.name == p.name) = true
  · refine ⟨⟨"duplicate key value violates unique constraint \"services_name_key\"",
      ?_, ?_⟩, ?_⟩
    · show (insertService st p).1 = _
      simp [insertService, h1]
    · show create_service (insertService st p).1 = _
      simp [insertService, create_service, h1]
    · show (insertService st p).2.records = _
      simp [insertService, h1]
  · have h2 : (st.records.any fun t => t.link == p.link) = true := by
      rcases hcase with h | h
      · exact absurd (List.any_eq_true.mpr ⟨s, hs, by simp [h]⟩) h1
      · exact List.any_eq_true.mpr ⟨s, hs, by simp [h]⟩
    have h1f : (st.records.any fun t => t.name == p.name) = false := by
      simpa using h1
    refine ⟨⟨"duplicate key value violates unique constraint \"services_link_key\"",
      ?_, ?_⟩, ?_⟩
    · show (insertService st p).1 = _
      simp [insertService, h1f, h2]
    · show create_service (insertService st p).1 = _
      simp [insertService, create_service, h1f, h2]
    · show (insertService st p).2.records = _
      simp [insertService, h1f, h2]

/-- C2 witness: creating a second record named a while one is stored. -/
theorem duplicate_create_rejected_witness :
    (∃ s ∈ (⟨[⟨1, "a", "http://x"⟩], 2⟩ : DbState).records,
        s.name = "a" ∨ s.link = "http://y") ∧
    ((∃ e, (insertService ⟨[⟨1, "a", "http://x"⟩], 2⟩ ⟨"a", "http://y"⟩).1 =
          Except.error e ∧
        (runCreate ⟨[⟨1, "a", "http://x"⟩], 2⟩ ⟨"a", "http://y"⟩).1 =
          Except.error ⟨400, "Failed to insert: " ++ e⟩) ∧
     (runCreate ⟨[⟨1, "a", "http://x"⟩], 2⟩ ⟨"a", "http://y"⟩).2.records =
       (⟨[⟨1, "a", "http://x"⟩], 2⟩ : DbState).records) :=
  ⟨⟨⟨1, "a", "http://x"⟩, by simp, Or.inl rfl⟩,
   duplicate_create_rejected ⟨[⟨1, "a", "http://x"⟩], 2⟩ ⟨"a", "http://y"⟩
     ⟨⟨1, "a", "http://x"⟩, by simp, Or.inl rfl⟩⟩

/-- C3: with distinct stored names, a delete request has exactly the
three-way outcome of the handler: the confirmation message naming the
path name exactly when one row was removed, the 404 response exactly
when zero rows matched, and the 500 response carrying the error text
when the DELETE statement itself failed. -/
theorem delete_three_way (st : DbState) (n : String)
    (hnodup : (st.records.map Service.name).Nodup) :
    ((runDelete st n).1 = Except.ok ("Deleted \x27" ++ n ++ "\x27") ↔
        (deleteRows st n).1 = 1) ∧
    ((runDelete st n).1 = Except.error ⟨404, "Service not found"⟩ ↔
        (deleteRows st n).1 = 0) ∧
    ∀ e, (runDeleteWith st n (some e)).1 = Except.error ⟨500, e⟩ := by
  have hle : (deleteRows st n).1 ≤ 1 := by
    show st.records.countP (fun s => s.name == n) ≤ 1
    have hcount : st.records.countP (fun s => s.name == n) =
        (st.records.map Service.name).count n := by
      simp [List.count, List.countP_map]
      rfl
    rw [hcount]
    exact List.nodup_iff_count_le_one.mp hnodup n
  have hd : (runDelete st n).1 =
      delete_service n (Except.ok (deleteRows st n).1) := rfl
  rcases Nat.le_one_iff_eq_zero_or_eq_one.mp hle with h0 | h1
  · rw [hd, h0]
    exact ⟨by simp [delete_service], by simp [delete_service],
      fun e => rfl⟩
  · rw [hd, h1]
    exact ⟨by simp [delete_service], by simp [delete_service],
      fun e => rfl⟩

/-- C3 witness: deleting the single stored record named a. -/
theorem delete_three_way_witness :
    ((⟨[⟨1, "a", "http://x"⟩], 2⟩ : DbState).records.map Service.name).Nodup ∧
    (((runDelete ⟨[⟨1, "a", "http://x"⟩], 2⟩ "a").1 =
        Except.ok ("Deleted \x27a\x27") ↔
        (deleteRows ⟨[⟨1, "a", "http://x"⟩], 2⟩ "a").1 = 1) ∧
     ((runDelete ⟨[⟨1, "a", "http://x"⟩], 2⟩ "a").1 =
        Except.error ⟨404, "Service not found"⟩ ↔
        (deleteRows ⟨[⟨1, "a", "http://x"⟩], 2⟩ "a").1 = 0) ∧
     ∀ e, (runDeleteWith ⟨[⟨1, "a", "http://x"⟩], 2⟩ "a" (some e)).1 =
        Except.error ⟨500, e⟩) :=
  ⟨by simp, delete_three_way ⟨[⟨1, "a", "http://x"⟩], 2⟩ "a" (by simp)⟩
